import Mathlib

/-!
Verification of the `Effect` / `EffectHandler` reference-counting engine and
the move-type priority resolver of the EasyPlayer repository.

The embedding follows `easyplayer/effect.py` and `easyplayer/player.py`:

* An `Effect` owns `on_f` / `off_f` callback slots and a
  `collections.defaultdict(list)` mapping a target-identity key to the list of
  currently applied handlers.  The defaultdict is embedded as a total function
  `Nat → List Nat` whose default value is `[]` (a missing key and a key holding
  the empty list are indistinguishable through every defaultdict read).
* Handlers are identified by a natural-number id (Python object identity);
  callbacks are identified by a natural-number id as well, since only *when*
  they are invoked — and the counter state they observe — matters here.
* Invocations of the on/off behaviors are recorded as `BehaviorEvent`s; each
  event records the handler count for the key as visible at the moment the
  callback runs (`len(self._effect_handlers[key])` at call time).
* Python exceptions are modelled with `Except`: `list.remove` on an absent
  element raises `ValueError`; a raising user callback is `callbackError`.
  Each operation also returns the state as left behind when the exception
  propagates, mirroring the mutation order of the source.
-/

namespace EasyPlayer

/-- A Python exception escaping an operation of the effect engine. -/
inductive PyError where
  | valueError
  | callbackError
deriving DecidableEq, Repr

/-- One invocation of an effect's on- or off-behavior, recording the target it
was invoked with and the handler count for the target's key as visible at the
moment the callback runs. -/
inductive BehaviorEvent where
  | onEvt (target : Nat) (countSeen : Nat)
  | offEvt (target : Nat) (countSeen : Nat)
deriving DecidableEq, Repr

/-- `EffectHandler.__init__`: links an effect to a target; `_delay` starts out
`None`.  The effect itself is threaded separately (state passing), so the
handler value carries its Python-identity id, its target and its `_delay`
slot (the id of the stored `Delay`, when one exists). -/
structure EffectHandler where
  id : Nat
  target : Nat
  delay : Option Nat
deriving DecidableEq, Repr

/-- State of an `Effect`: the `on_f` / `off_f` slots (callback ids, `none` for
Python `None`) and the `_effect_handlers` defaultdict, embedded as a total
function from keys to the list of applied handler ids (default `[]`). -/
structure Effect where
  on_f : Option Nat
  off_f : Option Nat
  handlers : Nat → List Nat

/-- `Effect.__init__(on_f, off_f)`: stores the two callbacks and creates a
fresh empty `defaultdict(list)`. -/
def Effect.init (on_f off_f : Option Nat) : Effect :=
  ⟨on_f, off_f, fun _ => []⟩

/-- `Effect.on(on_f)`: returns `type(self)(on_f, self.off_f)` — a new instance
with a fresh handler dict. -/
def Effect.on (e : Effect) (f : Nat) : Effect :=
  Effect.init (some f) e.off_f

/-- `Effect.off(off_f)`: returns `type(self)(self.on_f, off_f)` — a new
instance with a fresh handler dict. -/
def Effect.off (e : Effect) (f : Nat) : Effect :=
  Effect.init e.on_f (some f)

/-- Python `list.remove(a)`: removes the first occurrence of `a`, or raises
`ValueError` (modelled as `none`) when `a` is absent; the list is unchanged
in that case. -/
def removeFirst (xs : List Nat) (a : Nat) : Option (List Nat) :=
  match xs with
  | [] => none
  | x :: rest =>
      if x = a then some rest
      else (removeFirst rest a).map (fun ys => x :: ys)

/-- Result of one `_apply` / `_cancel` step: the propagated exception (if
any), the effect state left behind, and the behavior invocations made. -/
structure EffectStepResult where
  outcome : Except PyError Unit
  effect : Effect
  events : List BehaviorEvent

/-- `Effect._apply(handler)`:

    key = self.identify_target(handler.target)
    if len(self._effect_handlers[key]) == 0:
        self.on_f(handler.target)
    self._effect_handlers[key].append(handler)

The on-behavior runs *before* the append, observing the pre-append count.
`onRaises` selects whether the user callback raises; when it does, the
exception propagates before the append executes, leaving the dict
unchanged. -/
def Effect.applyCallback (e : Effect) (identify : Nat → Nat)
    (h : EffectHandler) (onRaises : Bool) : EffectStepResult :=
  let key := identify h.target
  let lst := e.handlers key
  if lst.length = 0 then
    if onRaises then
      ⟨Except.error PyError.callbackError, e, []⟩
    else
      ⟨Except.ok (),
       { e with handlers := fun k => if k = key then lst ++ [h.id] else e.handlers k },
       [BehaviorEvent.onEvt h.target lst.length]⟩
  else
    ⟨Except.ok (),
     { e with handlers := fun k => if k = key then lst ++ [h.id] else e.handlers k },
     []⟩

/-- `Effect._cancel(handler)`:

    key = self.identify_target(handler.target)
    self._effect_handlers[key].remove(handler)   # ValueError if absent
    if len(self._effect_handlers[key]) == 0:
        self.off_f(handler.target)

`list.remove` raises before mutating when the handler is absent; the
off-behavior runs *after* the removal, observing the post-removal count.
`offRaises` selects whether the user callback raises; the removal has
already happened when it does. -/
def Effect.cancelCallback (e : Effect) (identify : Nat → Nat)
    (h : EffectHandler) (offRaises : Bool) : EffectStepResult :=
  let key := identify h.target
  match removeFirst (e.handlers key) h.id with
  | none => ⟨Except.error PyError.valueError, e, []⟩
  | some rest =>
      let e' : Effect :=
        { e with handlers := fun k => if k = key then rest else e.handlers k }
      if rest.length = 0 then
        if offRaises then
          ⟨Except.error PyError.callbackError, e', []⟩
        else
          ⟨Except.ok (), e', [BehaviorEvent.offEvt h.target rest.length]⟩
      else
        ⟨Except.ok (), e', []⟩

/-- `Effect.is_active_for(target)`:
`return len(self._effect_handlers[self.identify_target(target)]) > 0`. -/
def Effect.isActiveFor (e : Effect) (identify : Nat → Nat) (target : Nat) : Bool :=
  (e.handlers (identify target)).length > 0

/-- `Effect.__get__(target, type_)`: returns the effect itself when accessed
through the class (`target is None`), and a brand-new
`EffectHandler(self, target)` (with `_delay = None`) when accessed through an
instance.  Fresh Python object identity is modelled by an allocator counter:
the new handler takes the next unused id and the counter advances. -/
def Effect.get (e : Effect) (target : Option Nat) (nextId : Nat) :
    (Effect ⊕ EffectHandler) × Nat :=
  match target with
  | Option.none => (Sum.inl e, nextId)
  | Option.some t => (Sum.inr ⟨nextId, t, Option.none⟩, nextId + 1)

/-- Modelled from the spec: the Scheduled Callback Service
(`listeners.tick.Delay`, external to this repository) holds single-shot
callbacks scheduled for a future tick.  A pending entry records the id of the
`Delay` object, the bound callback `self.effect._cancel` with its argument
tuple `(self,)` (handler id and target), and the requested duration. -/
structure PendingDelay where
  delayId : Nat
  handlerId : Nat
  target : Nat
  duration : Int
deriving DecidableEq, Repr

/-- The world visible to a single `Effect` and its handlers: the effect's
state, the scheduler's pending single-shot callbacks, and the allocator for
fresh `Delay` identities. -/
structure World where
  effect : Effect
  pending : List PendingDelay
  nextDelayId : Nat

/-- Modelled from the spec: cancelling a pending scheduled callback
(`Delay.cancel`) removes it from the service so that it never fires. -/
def cancelDelay (pending : List PendingDelay) (delayId : Nat) : List PendingDelay :=
  pending.filter (fun p => p.delayId != delayId)

/-- Result of an `EffectHandler.__call__`: the world, the returned handler
(`return self`, with its `_delay` slot possibly updated) and the behavior
invocations made. -/
structure CallResult where
  world : World
  handler : EffectHandler
  events : List BehaviorEvent

/-- `EffectHandler.__call__(duration)`:

    self.effect._apply(self)
    if duration is not None:
        self._delay = Delay(duration, self.effect._cancel, (self,))
    return self

The effect is applied first; whenever `duration` is not `None` (its sign is
not inspected) a single-shot callback is scheduled whose action is
`effect._cancel(self)` — not `self.cancel()` — and the `Delay` reference is
stored in `self._delay`. -/
def EffectHandler.call (w : World) (identify : Nat → Nat)
    (h : EffectHandler) (duration : Option Int) : CallResult :=
  let r := Effect.applyCallback w.effect identify h false
  match duration with
  | Option.none => ⟨{ w with effect := r.effect }, h, r.events⟩
  | Option.some d =>
      ⟨{ effect := r.effect,
         pending := w.pending ++ [⟨w.nextDelayId, h.id, h.target, d⟩],
         nextDelayId := w.nextDelayId + 1 },
       { h with delay := Option.some w.nextDelayId },
       r.events⟩

/-- Result of an `EffectHandler.cancel`: propagated exception (if any), the
world, the handler as left behind, and the behavior invocations made. -/
structure CancelResult where
  outcome : Except PyError Unit
  world : World
  handler : EffectHandler
  events : List BehaviorEvent

/-- `EffectHandler.cancel()`:

    if self._delay is not None:
        self._delay.cancel()
        self._delay = None
    self.effect._cancel(self)

The timer part runs first: when a `Delay` reference is held it is cancelled
through the scheduler and the local reference is cleared; then the effect's
`_cancel` runs (and may raise `ValueError`, leaving the already-cleared
`_delay` slot behind). -/
def EffectHandler.cancel (w : World) (identify : Nat → Nat)
    (h : EffectHandler) : CancelResult :=
  let wh : World × EffectHandler :=
    match h.delay with
    | Option.none => (w, h)
    | Option.some did =>
        ({ w with pending := cancelDelay w.pending did },
         { h with delay := Option.none })
  let r := Effect.cancelCallback wh.1.effect identify wh.2 false
  ⟨r.outcome, { wh.1 with effect := r.effect }, wh.2, r.events⟩

/-- `EffectHandler.is_active()`: `return self.effect.is_active_for(self.target)`. -/
def EffectHandler.isActive (w : World) (identify : Nat → Nat) (h : EffectHandler) : Bool :=
  Effect.isActiveFor w.effect identify h.target

/-- Result of the scheduler invoking a pending callback. -/
structure FireResult where
  outcome : Except PyError Unit
  world : World
  events : List BehaviorEvent

/-- Modelled from the spec: the Scheduled Callback Service fires a pending
single-shot callback once its duration has elapsed — the entry is removed
from the service and its stored action runs.  The stored action is the bound
`effect._cancel(handler)` from `EffectHandler.__call__`; it does not touch
the handler's `_delay` slot.  Firing a delay id which is not pending (it was
cancelled or already fired) is impossible: `none` is returned. -/
def fireDelay (w : World) (identify : Nat → Nat) (delayId : Nat) :
    Option FireResult :=
  match w.pending.find? (fun p => p.delayId == delayId) with
  | Option.none => Option.none
  | Option.some p =>
      let w1 : World := { w with pending := cancelDelay w.pending delayId }
      let r := Effect.cancelCallback w1.effect identify ⟨p.handlerId, p.target, Option.none⟩ false
      Option.some ⟨r.outcome, { w1 with effect := r.effect }, r.events⟩

/-! ### Trace machinery for sequences of apply/cancel calls -/

/-- One call made through some handler of a fixed effect and target:
`applyOp h` is `Effect._apply` with the handler of id `h`, `cancelOp h` is
`Effect._cancel` with the handler of id `h`. -/
inductive EffectOp where
  | applyOp (h : Nat)
  | cancelOp (h : Nat)
deriving DecidableEq, Repr

/-- Run one operation against the effect (callbacks do not raise). -/
def runOp (e : Effect) (identify : Nat → Nat) (t : Nat) :
    EffectOp → EffectStepResult
  | EffectOp.applyOp h => Effect.applyCallback e identify ⟨h, t, Option.none⟩ false
  | EffectOp.cancelOp h => Effect.cancelCallback e identify ⟨h, t, Option.none⟩ false

/-- Run a sequence of operations, returning the final effect state. -/
def runOps (identify : Nat → Nat) (t : Nat) : Effect → List EffectOp → Effect
  | e, [] => e
  | e, op :: rest => runOps identify t (runOp e identify t op).effect rest

/-- One step of a trace: the handler count for the target's key before and
after the step, and the behavior invocations the step made. -/
structure StepRecord where
  countBefore : Nat
  countAfter : Nat
  events : List BehaviorEvent
deriving DecidableEq, Repr

/-- The per-step records of running a sequence of operations. -/
def traceSteps (identify : Nat → Nat) (t : Nat) :
    Effect → List EffectOp → List StepRecord
  | _, [] => []
  | e, op :: rest =>
      let r := runOp e identify t op
      ⟨(e.handlers (identify t)).length,
       (r.effect.handlers (identify t)).length,
       r.events⟩ :: traceSteps identify t r.effect rest

/-- Well-formedness of a sequence of operations relative to the current
handler list for the key: each handler is applied only while not already
tracked and cancelled only while tracked — applies and revokes are paired
per handler. -/
def wfOps (lst : List Nat) : List EffectOp → Bool
  | [] => true
  | EffectOp.applyOp h :: rest => decide (h ∉ lst) && wfOps (lst ++ [h]) rest
  | EffectOp.cancelOp h :: rest =>
      match removeFirst lst h with
      | Option.none => false
      | Option.some lst' => wfOps lst' rest

/-- Number of apply operations in a sequence. -/
def countApplies (ops : List EffectOp) : Nat :=
  (ops.filter fun op => match op with
    | EffectOp.applyOp _ => true
    | EffectOp.cancelOp _ => false).length

/-- Number of cancel operations in a sequence. -/
def countCancels (ops : List EffectOp) : Nat :=
  (ops.filter fun op => match op with
    | EffectOp.applyOp _ => false
    | EffectOp.cancelOp _ => true).length

/-! ### Move-type priority resolver (`easyplayer/player.py`) -/

/-- `entities.constants.MoveType` values used by `_update_move_type`
(`NONE` is the frozen movement mode). -/
inductive MoveType where
  | NOCLIP
  | NONE
  | FLY
  | WALK
deriving DecidableEq, Repr

/-- The three movement effects consulted by the resolver, in its fixed
priority order. -/
inductive MoveEffectKind where
  | noclip
  | freeze
  | fly
deriving DecidableEq, Repr

/-- The player state the resolver touches: the per-effect handler lists
(`self._effects`, a `defaultdict(list)` embedded as a total function with
default `[]`) and the externally visible `move_type`. -/
structure PlayerMoveState where
  effects : MoveEffectKind → List Nat
  move_type : MoveType

/-- `EasyPlayer._update_move_type`:

    if self._effects[type(self).noclip]:
        self.move_type = MoveType.NOCLIP
    elif self._effects[type(self).freeze]:
        self.move_type = MoveType.NONE
    elif self._effects[type(self).fly]:
        self.move_type = MoveType.FLY
    else:
        self.move_type = MoveType.WALK

Python list truthiness is non-emptiness. -/
def updateMoveType (p : PlayerMoveState) : PlayerMoveState :=
  if p.effects MoveEffectKind.noclip ≠ [] then
    { p with move_type := MoveType.NOCLIP }
  else if p.effects MoveEffectKind.freeze ≠ [] then
    { p with move_type := MoveType.NONE }
  else if p.effects MoveEffectKind.fly ≠ [] then
    { p with move_type := MoveType.FLY }
  else
    { p with move_type := MoveType.WALK }

/-- `_PlayerEffect._enable` (from `easyplayer.py`) specialised to the three
movement effects, whose on-function is `_update_move_type`: the handler is
appended to `self._player._effects[self._descriptor_obj]` and the
on-function then runs on the player. -/
def enableMove (p : PlayerMoveState) (kind : MoveEffectKind) (hid : Nat) :
    PlayerMoveState :=
  updateMoveType
    { p with effects := fun k => if k = kind then p.effects kind ++ [hid] else p.effects k }

/-- `_PlayerEffect._disable` (from `easyplayer.py`) specialised to the three
movement effects, whose off-function is `_update_move_type`: the handler is
removed from `self._player._effects[self._descriptor_obj]` (`ValueError`,
i.e. `none`, when absent) and, if no handler of this kind remains, the
off-function runs on the player. -/
def disableMove (p : PlayerMoveState) (kind : MoveEffectKind) (hid : Nat) :
    Option PlayerMoveState :=
  match removeFirst (p.effects kind) hid with
  | Option.none => Option.none
  | Option.some rest =>
      let p1 : PlayerMoveState :=
        { p with effects := fun k => if k = kind then rest else p.effects k }
      if rest.length = 0 then Option.some (updateMoveType p1) else Option.some p1

/-- The spec's wording of the resolver ("iterate the three effects in fixed
priority order {no-clip, freeze, fly}; assign the mode associated with the
first effect found active; if none are active, assign the default walking
mode"), as a function of the three activity flags.  Kept separate from
`updateMoveType` so the two can be compared. -/
def specResolverMode (noclipActive freezeActive flyActive : Bool) : MoveType :=
  if noclipActive then MoveType.NOCLIP
  else if freezeActive then MoveType.NONE
  else if flyActive then MoveType.FLY
  else MoveType.WALK

/-! ### Helper lemmas -/

theorem removeFirst_eq_none {xs : List Nat} {a : Nat} (h : a ∉ xs) :
    removeFirst xs a = Option.none := by
  induction xs with
  | nil => rfl
  | cons x rest ih =>
    simp only [List.mem_cons, not_or] at h
    rw [removeFirst, if_neg (fun hxa => h.1 hxa.symm), ih h.2]
    rfl

theorem removeFirst_length {xs ys : List Nat} {a : Nat}
    (h : removeFirst xs a = Option.some ys) : xs.length = ys.length + 1 := by
  induction xs generalizing ys with
  | nil => simp [removeFirst] at h
  | cons x rest ih =>
    rw [removeFirst] at h
    by_cases hx : x = a
    · rw [if_pos hx] at h
      cases h
      rfl
    · rw [if_neg hx] at h
      rw [Option.map_eq_some'] at h
      obtain ⟨zs, hzs, rfl⟩ := h
      simp [ih hzs]

theorem removeFirst_append {xs : List Nat} {a : Nat} (h : a ∉ xs) :
    removeFirst (xs ++ [a]) a = Option.some xs := by
  induction xs with
  | nil => simp [removeFirst]
  | cons x rest ih =>
    simp only [List.mem_cons, not_or] at h
    rw [List.cons_append, removeFirst, if_neg (fun hxa => h.1 hxa.symm), ih h.2]
    rfl

theorem cancelCallback_of_not_mem {e : Effect} {identify : Nat → Nat}
    {h : EffectHandler} (b : Bool)
    (hmem : h.id ∉ e.handlers (identify h.target)) :
    Effect.cancelCallback e identify h b =
      ⟨Except.error PyError.valueError, e, []⟩ := by
  simp only [Effect.cancelCallback, removeFirst_eq_none hmem]

theorem handlerCancel_of_not_tracked {w : World} {identify : Nat → Nat}
    {h : EffectHandler} (hdelay : h.delay = Option.none)
    (hmem : h.id ∉ w.effect.handlers (identify h.target)) :
    EffectHandler.cancel w identify h =
      ⟨Except.error PyError.valueError, w, h, []⟩ := by
  simp only [EffectHandler.cancel, hdelay, cancelCallback_of_not_mem false hmem]

theorem traceSteps_apply (e : Effect) (identify : Nat → Nat) (t h : Nat)
    (rest : List EffectOp) :
    traceSteps identify t e (EffectOp.applyOp h :: rest) =
      ⟨(e.handlers (identify t)).length, (e.handlers (identify t)).length + 1,
       if (e.handlers (identify t)).length = 0 then [BehaviorEvent.onEvt t 0] else []⟩ ::
      traceSteps identify t
        { e with handlers := fun k =>
            if k = identify t then e.handlers (identify t) ++ [h] else e.handlers k }
        rest := by
  by_cases hl : (e.handlers (identify t)).length = 0 <;>
    simp [traceSteps, runOp, Effect.applyCallback, hl]

theorem traceSteps_cancel {e : Effect} {identify : Nat → Nat} {t h : Nat}
    {lst' : List Nat} (rest : List EffectOp)
    (hrem : removeFirst (e.handlers (identify t)) h = Option.some lst') :
    traceSteps identify t e (EffectOp.cancelOp h :: rest) =
      ⟨lst'.length + 1, lst'.length,
       if lst'.length = 0 then [BehaviorEvent.offEvt t 0] else []⟩ ::
      traceSteps identify t
        { e with handlers := fun k => if k = identify t then lst' else e.handlers k }
        rest := by
  have hlen := removeFirst_length hrem
  by_cases hl : lst'.length = 0 <;>
    simp [traceSteps, runOp, Effect.cancelCallback, hrem, hl, hlen]

/-- C1 (`explicit`, functional_correctness): for every sequence of paired
apply/cancel calls through independent handlers of the same effect and
target, each step changes the handler count for the target's key by exactly
one; a 0→1 step invokes the on-behavior exactly once, a 1→0 step invokes the
off-behavior exactly once, and a step between the edges (count positive
before and after) invokes neither. -/
theorem effect_edge_triggering (identify : Nat → Nat) (t : Nat) (e : Effect)
    (ops : List EffectOp)
    (hwf : wfOps (e.handlers (identify t)) ops = true) :
    ∀ s ∈ traceSteps identify t e ops,
      (s.countAfter = s.countBefore + 1 ∨ s.countBefore = s.countAfter + 1) ∧
      (s.countBefore = 0 ∧ s.countAfter = 1 →
        s.events = [BehaviorEvent.onEvt t 0]) ∧
      (s.countBefore = 1 ∧ s.countAfter = 0 →
        s.events = [BehaviorEvent.offEvt t 0]) ∧
      (0 < s.countBefore → 0 < s.countAfter → s.events = []) := by
  induction ops generalizing e with
  | nil =>
    intro s hs
    simp [traceSteps] at hs
  | cons op rest ih =>
    intro s hs
    cases op with
    | applyOp h =>
      rw [wfOps, Bool.and_eq_true] at hwf
      rw [traceSteps_apply] at hs
      rcases List.mem_cons.mp hs with rfl | hs
      · dsimp only
        refine ⟨Or.inl rfl, fun h0 => ?_, fun h0 => ?_, fun hpos _ => ?_⟩
        · rw [if_pos h0.1]
        · exact absurd h0.2 (Nat.succ_ne_zero _)
        · exact if_neg (by omega)
      · refine ih _ ?_ s hs
        dsimp only
        rw [if_pos rfl]
        exact hwf.2
    | cancelOp h =>
      rw [wfOps] at hwf
      rcases hrem : removeFirst (e.handlers (identify t)) h with - | lst'
      · rw [hrem] at hwf
        exact absurd hwf (by simp)
      · rw [hrem] at hwf
        rw [traceSteps_cancel rest hrem] at hs
        rcases List.mem_cons.mp hs with rfl | hs
        · dsimp only
          refine ⟨Or.inr rfl, fun h0 => ?_, fun h0 => ?_, fun _ hpos => ?_⟩
          · exact absurd h0.1 (Nat.succ_ne_zero _)
          · rw [if_pos h0.2]
          · exact if_neg (by omega)
        · refine ih _ ?_ s hs
          dsimp only
          rw [if_pos rfl]
          exact hwf

/-- Witness for `effect_edge_triggering`: two handlers applied and cancelled
in an interleaved order on a fresh effect. -/
theorem effect_edge_triggering_witness :
    wfOps ((Effect.init Option.none Option.none).handlers ((fun k => k) 3))
        [EffectOp.applyOp 1, EffectOp.applyOp 2,
         EffectOp.cancelOp 1, EffectOp.cancelOp 2] = true ∧
    ∀ s ∈ traceSteps (fun k => k) 3 (Effect.init Option.none Option.none)
        [EffectOp.applyOp 1, EffectOp.applyOp 2,
         EffectOp.cancelOp 1, EffectOp.cancelOp 2],
      (s.countAfter = s.countBefore + 1 ∨ s.countBefore = s.countAfter + 1) ∧
      (s.countBefore = 0 ∧ s.countAfter = 1 →
        s.events = [BehaviorEvent.onEvt 3 0]) ∧
      (s.countBefore = 1 ∧ s.countAfter = 0 →
        s.events = [BehaviorEvent.offEvt 3 0]) ∧
      (0 < s.countBefore → 0 < s.countAfter → s.events = []) :=
  ⟨by decide,
   effect_edge_triggering (fun k => k) 3 (Effect.init Option.none Option.none)
     [EffectOp.applyOp 1, EffectOp.applyOp 2,
      EffectOp.cancelOp 1, EffectOp.cancelOp 2] (by decide)⟩

/-- C2 counterexample: on a fresh effect, the very first apply is a 0→1
transition, yet the on-behavior is invoked while the counter still reads 0
(the handler is appended only after the callback), not 1 as the claim
states. -/
theorem on_behavior_sees_zero_counterexample :
    (Effect.applyCallback (Effect.init Option.none Option.none) (fun k => k)
        ⟨1, 7, Option.none⟩ false).events = [BehaviorEvent.onEvt 7 0] ∧
    (Effect.applyCallback (Effect.init Option.none Option.none) (fun k => k)
        ⟨1, 7, Option.none⟩ false).events ≠ [BehaviorEvent.onEvt 7 1] := by
  decide

/-- C2 amended: every on-behavior invocation observes a counter of 0 (the
handler is appended only after the callback returns, so `is_active` reports
false during the on-behavior), and every off-behavior invocation observes a
counter of 0 (the handler is removed before the callback).  A raising
on-behavior leaves the effect unchanged (the handler is never recorded), and
a raising off-behavior leaves the counter at 0 with the removal already
applied. -/
theorem callback_counter_state (e : Effect) (identify : Nat → Nat)
    (h : EffectHandler) :
    (∀ b, ∀ ev ∈ (Effect.applyCallback e identify h b).events,
        ev = BehaviorEvent.onEvt h.target 0) ∧
    (∀ b, ∀ ev ∈ (Effect.cancelCallback e identify h b).events,
        ev = BehaviorEvent.offEvt h.target 0) ∧
    ((e.handlers (identify h.target)).length = 0 →
      (Effect.applyCallback e identify h true).outcome =
          Except.error PyError.callbackError ∧
      (Effect.applyCallback e identify h true).effect = e) ∧
    (removeFirst (e.handlers (identify h.target)) h.id = Option.some [] →
      (Effect.cancelCallback e identify h true).outcome =
          Except.error PyError.callbackError ∧
      (Effect.cancelCallback e identify h true).effect.handlers
          (identify h.target) = []) := by
  refine ⟨fun b ev hev => ?_, fun b ev hev => ?_, fun h0 => ?_, fun hrem => ?_⟩
  · by_cases hl : (e.handlers (identify h.target)).length = 0 <;>
      cases b <;> simp [Effect.applyCallback, hl] at hev <;> simp [hev, hl]
  · rcases hrem : removeFirst (e.handlers (identify h.target)) h.id with - | lst'
    · simp [Effect.cancelCallback, hrem] at hev
    · by_cases hl : lst'.length = 0 <;>
        cases b <;> simp [Effect.cancelCallback, hrem, hl] at hev <;>
        simp [hev, List.length_eq_zero.mp hl]
  · simp [Effect.applyCallback, h0]
  · simp [Effect.cancelCallback, hrem]

/-- Witness for `callback_counter_state`: a fresh effect and a handler of
id 1 — the raising on-behavior propagates and the effect is unchanged. -/
theorem callback_counter_state_witness :
    ((Effect.init Option.none Option.none).handlers
        ((fun k => k) ((⟨1, 7, Option.none⟩ : EffectHandler).target))).length = 0 ∧
    ((Effect.applyCallback (Effect.init Option.none Option.none) (fun k => k)
        ⟨1, 7, Option.none⟩ true).outcome = Except.error PyError.callbackError ∧
     (Effect.applyCallback (Effect.init Option.none Option.none) (fun k => k)
        ⟨1, 7, Option.none⟩ true).effect = Effect.init Option.none Option.none) :=
  ⟨by decide,
   (callback_counter_state (Effect.init Option.none Option.none) (fun k => k)
     ⟨1, 7, Option.none⟩).2.2.1 (by decide)⟩

theorem runOp_apply_effect (e : Effect) (identify : Nat → Nat) (t h : Nat) :
    (runOp e identify t (EffectOp.applyOp h)).effect.handlers (identify t) =
      e.handlers (identify t) ++ [h] := by
  by_cases hl : (e.handlers (identify t)).length = 0 <;>
    simp [runOp, Effect.applyCallback, hl]

theorem runOp_cancel_effect {e : Effect} {identify : Nat → Nat} {t h : Nat}
    {lst' : List Nat}
    (hrem : removeFirst (e.handlers (identify t)) h = Option.some lst') :
    (runOp e identify t (EffectOp.cancelOp h)).effect.handlers (identify t) =
      lst' := by
  by_cases hl : lst'.length = 0 <;>
    simp [runOp, Effect.cancelCallback, hrem, hl]

theorem countApplies_cons_apply (h : Nat) (ops : List EffectOp) :
    countApplies (EffectOp.applyOp h :: ops) = countApplies ops + 1 := by
  simp [countApplies]

theorem countApplies_cons_cancel (h : Nat) (ops : List EffectOp) :
    countApplies (EffectOp.cancelOp h :: ops) = countApplies ops := by
  simp [countApplies]

theorem countCancels_cons_apply (h : Nat) (ops : List EffectOp) :
    countCancels (EffectOp.applyOp h :: ops) = countCancels ops := by
  simp [countCancels]

theorem countCancels_cons_cancel (h : Nat) (ops : List EffectOp) :
    countCancels (EffectOp.cancelOp h :: ops) = countCancels ops + 1 := by
  simp [countCancels]

theorem runOps_net (identify : Nat → Nat) (t : Nat) (e : Effect)
    (ops : List EffectOp)
    (hwf : wfOps (e.handlers (identify t)) ops = true) :
    ((runOps identify t e ops).handlers (identify t)).length + countCancels ops =
      (e.handlers (identify t)).length + countApplies ops := by
  induction ops generalizing e with
  | nil => simp [runOps, countApplies, countCancels]
  | cons op rest ih =>
    cases op with
    | applyOp h =>
      rw [wfOps, Bool.and_eq_true] at hwf
      rw [runOps]
      have hkey := runOp_apply_effect e identify t h
      have hnet := ih (runOp e identify t (EffectOp.applyOp h)).effect
        (by rw [hkey]; exact hwf.2)
      rw [hkey] at hnet
      rw [countApplies_cons_apply, countCancels_cons_apply]
      simp only [List.length_append, List.length_cons, List.length_nil] at hnet
      omega
    | cancelOp h =>
      rw [wfOps] at hwf
      rcases hrem : removeFirst (e.handlers (identify t)) h with - | lst'
      · rw [hrem] at hwf
        exact absurd hwf (by simp)
      · rw [hrem] at hwf
        rw [runOps]
        have hkey := runOp_cancel_effect hrem
        have hnet := ih (runOp e identify t (EffectOp.cancelOp h)).effect
          (by rw [hkey]; exact hwf)
        rw [hkey] at hnet
        have hlen := removeFirst_length hrem
        rw [countApplies_cons_cancel, countCancels_cons_cancel]
        omega

/-- C3 (`explicit`, functional_correctness): after any paired sequence of
applies and cancels starting from a fresh effect, `is_active_for` reports
true exactly when the net outstanding count (applies minus revokes) for the
target's key is positive; a fresh effect reports false for every target,
including targets never seen.  The query reads the handler map and returns a
Bool only — it modifies no state. -/
theorem is_active_iff_net_positive (identify : Nat → Nat) (t : Nat)
    (ops : List EffectOp)
    (hwf : wfOps ((Effect.init Option.none Option.none).handlers (identify t))
        ops = true) :
    (Effect.isActiveFor (runOps identify t (Effect.init Option.none Option.none) ops)
        identify t = true ↔ countCancels ops < countApplies ops) ∧
    (∀ onF offF t', Effect.isActiveFor (Effect.init onF offF) identify t' = false) := by
  constructor
  · have hnet := runOps_net identify t (Effect.init Option.none Option.none) ops hwf
    have hstart :
        (((Effect.init Option.none Option.none) : Effect).handlers (identify t)).length = 0 :=
      rfl
    rw [hstart] at hnet
    rw [Effect.isActiveFor, decide_eq_true_iff]
    omega
  · intro onF offF t'
    rfl

/-- Witness for `is_active_iff_net_positive`: two applies and one cancel on
a fresh effect leave the effect active. -/
theorem is_active_iff_net_positive_witness :
    wfOps ((Effect.init Option.none Option.none).handlers ((fun k => k) 4))
        [EffectOp.applyOp 1, EffectOp.applyOp 2, EffectOp.cancelOp 1] = true ∧
    (Effect.isActiveFor
        (runOps (fun k => k) 4 (Effect.init Option.none Option.none)
          [EffectOp.applyOp 1, EffectOp.applyOp 2, EffectOp.cancelOp 1])
        (fun k => k) 4 = true ↔
      countCancels [EffectOp.applyOp 1, EffectOp.applyOp 2, EffectOp.cancelOp 1] <
        countApplies [EffectOp.applyOp 1, EffectOp.applyOp 2, EffectOp.cancelOp 1]) :=
  ⟨by decide,
   (is_active_iff_net_positive (fun k => k) 4
     [EffectOp.applyOp 1, EffectOp.applyOp 2, EffectOp.cancelOp 1] (by decide)).1⟩

/-- C4 (`explicit`, error_handling): revoking a handler that is not tracked
as applied for its target — including the zero-count case and a repeated
revoke — raises (`list.remove` raises `ValueError`, the spec's
InvalidStateError), and leaves the effect's counter and handler lists
unchanged, with no behavior invoked. -/
theorem revoke_untracked_raises (e : Effect) (identify : Nat → Nat)
    (h : EffectHandler) (b : Bool)
    (hmem : h.id ∉ e.handlers (identify h.target)) :
    Effect.cancelCallback e identify h b =
      ⟨Except.error PyError.valueError, e, []⟩ :=
  cancelCallback_of_not_mem b hmem

/-- Witness for `revoke_untracked_raises`: handler 9 is revoked from an
effect that tracks only handler 2 for the key. -/
theorem revoke_untracked_raises_witness :
    ((9 : Nat) ∉ (Effect.mk Option.none Option.none
        (fun k => if k = 5 then [2] else [])).handlers ((fun k => k) 5)) ∧
    Effect.cancelCallback
        (Effect.mk Option.none Option.none (fun k => if k = 5 then [2] else []))
        (fun k => k) ⟨9, 5, Option.none⟩ false =
      ⟨Except.error PyError.valueError,
       Effect.mk Option.none Option.none (fun k => if k = 5 then [2] else []),
       []⟩ :=
  ⟨by decide,
   revoke_untracked_raises
     (Effect.mk Option.none Option.none (fun k => if k = 5 then [2] else []))
     (fun k => k) ⟨9, 5, Option.none⟩ false (by decide)⟩

theorem find?_cancelDelay (pending : List PendingDelay) (did : Nat) :
    (cancelDelay pending did).find? (fun p => p.delayId == did) = Option.none := by
  rw [List.find?_eq_none]
  intro x hx
  have hne := (List.mem_filter.mp hx).2
  simpa using hne

/-- C5 (`explicit`, error_handling): a handler activated once (here with a
duration, exercising the timer path) and then cancelled sees its second
`cancel()` leave everything untouched: the timer part is a no-op (the delay
reference was cleared by the first cancel), the counter is not decremented a
second time, no behavior fires, and exactly one defined exception type —
the `ValueError` from `list.remove` — propagates. -/
theorem second_cancel_raises_once (w : World) (identify : Nat → Nat)
    (h : EffectHandler) (d : Int) (s1 : CallResult) (s2 : CancelResult)
    (hmem : h.id ∉ w.effect.handlers (identify h.target))
    (hs1 : s1 = EffectHandler.call w identify h (Option.some d))
    (hs2 : s2 = EffectHandler.cancel s1.world identify s1.handler) :
    s2.outcome = Except.ok () ∧
    EffectHandler.cancel s2.world identify s2.handler =
      ⟨Except.error PyError.valueError, s2.world, s2.handler, []⟩ := by
  subst hs2
  subst hs1
  have hrem1 : removeFirst (w.effect.handlers (identify h.target) ++ [h.id]) h.id =
      Option.some (w.effect.handlers (identify h.target)) := removeFirst_append hmem
  have hrem2 : removeFirst (w.effect.handlers (identify h.target)) h.id =
      Option.none := removeFirst_eq_none hmem
  by_cases hl : (w.effect.handlers (identify h.target)).length = 0 <;>
    simp [EffectHandler.call, EffectHandler.cancel, Effect.applyCallback,
      Effect.cancelCallback, hl, hrem1, hrem2]

/-- Witness for `second_cancel_raises_once`: a fresh effect, handler 1 on
target 6, duration 2. -/
theorem second_cancel_raises_once_witness :
    ((1 : Nat) ∉ (Effect.init Option.none Option.none).handlers ((fun k => k) 6)) ∧
    ((EffectHandler.cancel
        (EffectHandler.call ⟨Effect.init Option.none Option.none, [], 0⟩
          (fun k => k) ⟨1, 6, Option.none⟩ (Option.some 2)).world (fun k => k)
        (EffectHandler.call ⟨Effect.init Option.none Option.none, [], 0⟩
          (fun k => k) ⟨1, 6, Option.none⟩ (Option.some 2)).handler).outcome =
      Except.ok () ∧
    EffectHandler.cancel
        (EffectHandler.cancel
          (EffectHandler.call ⟨Effect.init Option.none Option.none, [], 0⟩
            (fun k => k) ⟨1, 6, Option.none⟩ (Option.some 2)).world (fun k => k)
          (EffectHandler.call ⟨Effect.init Option.none Option.none, [], 0⟩
            (fun k => k) ⟨1, 6, Option.none⟩ (Option.some 2)).handler).world
        (fun k => k)
        (EffectHandler.cancel
          (EffectHandler.call ⟨Effect.init Option.none Option.none, [], 0⟩
            (fun k => k) ⟨1, 6, Option.none⟩ (Option.some 2)).world (fun k => k)
          (EffectHandler.call ⟨Effect.init Option.none Option.none, [], 0⟩
            (fun k => k) ⟨1, 6, Option.none⟩ (Option.some 2)).handler).handler =
      ⟨Except.error PyError.valueError,
       (EffectHandler.cancel
          (EffectHandler.call ⟨Effect.init Option.none Option.none, [], 0⟩
            (fun k => k) ⟨1, 6, Option.none⟩ (Option.some 2)).world (fun k => k)
          (EffectHandler.call ⟨Effect.init Option.none Option.none, [], 0⟩
            (fun k => k) ⟨1, 6, Option.none⟩ (Option.some 2)).handler).world,
       (EffectHandler.cancel
          (EffectHandler.call ⟨Effect.init Option.none Option.none, [], 0⟩
            (fun k => k) ⟨1, 6, Option.none⟩ (Option.some 2)).world (fun k => k)
          (EffectHandler.call ⟨Effect.init Option.none Option.none, [], 0⟩
            (fun k => k) ⟨1, 6, Option.none⟩ (Option.some 2)).handler).handler,
       []⟩) :=
  ⟨by decide,
   second_cancel_raises_once ⟨Effect.init Option.none Option.none, [], 0⟩
     (fun k => k) ⟨1, 6, Option.none⟩ 2 _ _ (by decide) rfl rfl⟩

/-- C6 counterexample: with `duration = 0` — provided but not positive — the
claim requires that no callback be scheduled, yet `__call__` guards only on
`duration is not None` and schedules one. -/
theorem call_schedules_nonpositive_counterexample :
    (EffectHandler.call ⟨Effect.init Option.none Option.none, [], 0⟩
        (fun k => k) ⟨1, 5, Option.none⟩ (Option.some 0)).world.pending.length = 1 ∧
    ¬ ((0 : Int) > 0) := by
  decide

/-- C6 amended: calling a handler first applies the effect; exactly when a
duration is provided (`is not None`, its sign never inspected) one
single-shot callback is scheduled whose stored action is the effect's revoke
(`effect._cancel`) bound to this handler — not the handler's own `cancel()`,
so firing it does not clear the delay reference — the scheduled-callback
reference is stored in the handler, and the handler itself is returned;
with no duration nothing is scheduled and the handler is returned
unchanged. -/
theorem call_semantics (w : World) (identify : Nat → Nat) (h : EffectHandler) :
    ((EffectHandler.call w identify h Option.none).world.pending = w.pending ∧
     (EffectHandler.call w identify h Option.none).handler = h) ∧
    (∀ d : Int,
      (EffectHandler.call w identify h (Option.some d)).world.pending =
          w.pending ++ [⟨w.nextDelayId, h.id, h.target, d⟩] ∧
      (EffectHandler.call w identify h (Option.some d)).handler =
          { h with delay := Option.some w.nextDelayId }) ∧
    (∀ d : Option Int,
      (EffectHandler.call w identify h d).world.effect =
          (Effect.applyCallback w.effect identify h false).effect ∧
      (EffectHandler.call w identify h d).events =
          (Effect.applyCallback w.effect identify h false).events) := by
  refine ⟨⟨rfl, rfl⟩, fun d => ⟨rfl, rfl⟩, fun d => ?_⟩
  cases d <;> exact ⟨rfl, rfl⟩

/-- C7 counterexample: activate with a duration, let the scheduled callback
fire, then call `cancel()` — far from a safe no-op, it raises `ValueError`,
because the fired callback ran `effect._cancel` directly without clearing
the handler's delay reference. -/
theorem cancel_after_expiry_counterexample :
    Option.map
      (fun r : FireResult =>
        (EffectHandler.cancel r.world (fun k => k)
          (EffectHandler.call ⟨Effect.init Option.none Option.none, [], 0⟩
            (fun k => k) ⟨1, 5, Option.none⟩ (Option.some 3)).handler).outcome)
      (fireDelay
        (EffectHandler.call ⟨Effect.init Option.none Option.none, [], 0⟩
          (fun k => k) ⟨1, 5, Option.none⟩ (Option.some 3)).world (fun k => k) 0) =
    Option.some (Except.error PyError.valueError) := by
  rfl

/-- C7 amended: cancelling a handler before its scheduled auto-expiry fires
removes the pending callback from the scheduler, so it can never fire (no
second revoke ever occurs); but cancelling after the callback has already
fired is not a safe no-op — it raises the `ValueError` of a double revoke,
since the fired callback invoked the effect's revoke directly and left the
handler's delay reference set. -/
theorem cancel_vs_auto_expiry (w : World) (identify : Nat → Nat)
    (h : EffectHandler) (d : Int) (s1 : CallResult)
    (hmem : h.id ∉ w.effect.handlers (identify h.target))
    (hfresh : ∀ p ∈ w.pending, p.delayId ≠ w.nextDelayId)
    (hs1 : s1 = EffectHandler.call w identify h (Option.some d)) :
    fireDelay (EffectHandler.cancel s1.world identify s1.handler).world identify
        w.nextDelayId = Option.none ∧
    ∀ r : FireResult, fireDelay s1.world identify w.nextDelayId = Option.some r →
      (EffectHandler.cancel r.world identify s1.handler).outcome =
        Except.error PyError.valueError := by
  subst hs1
  have hrem1 : removeFirst (w.effect.handlers (identify h.target) ++ [h.id]) h.id =
      Option.some (w.effect.handlers (identify h.target)) := removeFirst_append hmem
  have hrem2 : removeFirst (w.effect.handlers (identify h.target)) h.id =
      Option.none := removeFirst_eq_none hmem
  constructor
  · have hp : (EffectHandler.cancel
        (EffectHandler.call w identify h (Option.some d)).world identify
        (EffectHandler.call w identify h (Option.some d)).handler).world.pending =
        cancelDelay ((EffectHandler.call w identify h (Option.some d)).world.pending)
          w.nextDelayId := by
      by_cases hl : (w.effect.handlers (identify h.target)).length = 0 <;>
        simp [EffectHandler.call, EffectHandler.cancel, Effect.applyCallback,
          Effect.cancelCallback, hl, hrem1]
    rw [fireDelay, hp, find?_cancelDelay]
  · intro r hr
    have hfind : (EffectHandler.call w identify h (Option.some d)).world.pending.find?
        (fun p => p.delayId == w.nextDelayId) =
        Option.some ⟨w.nextDelayId, h.id, h.target, d⟩ := by
      have hcallp : (EffectHandler.call w identify h (Option.some d)).world.pending =
          w.pending ++ [⟨w.nextDelayId, h.id, h.target, d⟩] := by
        by_cases hl : (w.effect.handlers (identify h.target)).length = 0 <;>
          simp [EffectHandler.call, Effect.applyCallback, hl]
      rw [hcallp, List.find?_append]
      have hnone : w.pending.find? (fun p => p.delayId == w.nextDelayId) =
          Option.none := by
        rw [List.find?_eq_none]
        intro x hx
        simpa using hfresh x hx
      rw [hnone]
      simp [List.find?]
    rw [fireDelay, hfind] at hr
    have hr' := hr.symm
    rw [Option.some.injEq] at hr'
    subst hr'
    by_cases hl : (w.effect.handlers (identify h.target)).length = 0 <;>
      simp [EffectHandler.call, EffectHandler.cancel, Effect.applyCallback,
        Effect.cancelCallback, hl, hrem1, hrem2, cancelDelay]

/-- Witness for `cancel_vs_auto_expiry`: fresh world, handler 1 on target 5,
duration 3. -/
theorem cancel_vs_auto_expiry_witness :
    ((1 : Nat) ∉ (Effect.init Option.none Option.none).handlers ((fun k => k) 5)) ∧
    (∀ p ∈ ([] : List PendingDelay), p.delayId ≠ 0) ∧
    fireDelay
        (EffectHandler.cancel
          (EffectHandler.call ⟨Effect.init Option.none Option.none, [], 0⟩
            (fun k => k) ⟨1, 5, Option.none⟩ (Option.some 3)).world (fun k => k)
          (EffectHandler.call ⟨Effect.init Option.none Option.none, [], 0⟩
            (fun k => k) ⟨1, 5, Option.none⟩ (Option.some 3)).handler).world
        (fun k => k) 0 = Option.none :=
  ⟨by decide, by simp,
   (cancel_vs_auto_expiry ⟨Effect.init Option.none Option.none, [], 0⟩
     (fun k => k) ⟨1, 5, Option.none⟩ 3 _ (by decide) (by simp) rfl).1⟩

/-- C8 (`explicit`, functional_correctness): `_update_move_type` assigns the
mode of the first active effect in the fixed priority order no-clip, freeze,
fly, defaulting to walking — it agrees with the spec's priority-scan
resolver on every state — and the scenario holds: from WALK, activating
freeze gives FREEZE (`MoveType.NONE`), then activating no-clip gives NOCLIP,
deactivating no-clip reverts to FREEZE (not WALK) while freeze stays active,
and deactivating freeze returns to WALK. -/
theorem move_type_priority_resolution (p : PlayerMoveState) :
    ((updateMoveType p).move_type =
      specResolverMode (!(p.effects MoveEffectKind.noclip).isEmpty)
        (!(p.effects MoveEffectKind.freeze).isEmpty)
        (!(p.effects MoveEffectKind.fly).isEmpty)) ∧
    ((PlayerMoveState.mk (fun _ => []) MoveType.WALK).move_type = MoveType.WALK ∧
     (enableMove (PlayerMoveState.mk (fun _ => []) MoveType.WALK)
        MoveEffectKind.freeze 1).move_type = MoveType.NONE ∧
     (enableMove
        (enableMove (PlayerMoveState.mk (fun _ => []) MoveType.WALK)
          MoveEffectKind.freeze 1)
        MoveEffectKind.noclip 2).move_type = MoveType.NOCLIP ∧
     Option.map PlayerMoveState.move_type
        (disableMove
          (enableMove
            (enableMove (PlayerMoveState.mk (fun _ => []) MoveType.WALK)
              MoveEffectKind.freeze 1)
            MoveEffectKind.noclip 2)
          MoveEffectKind.noclip 2) = Option.some MoveType.NONE ∧
     Option.map PlayerMoveState.move_type
        (Option.bind
          (disableMove
            (enableMove
              (enableMove (PlayerMoveState.mk (fun _ => []) MoveType.WALK)
                MoveEffectKind.freeze 1)
              MoveEffectKind.noclip 2)
            MoveEffectKind.noclip 2)
          (fun p3 => disableMove p3 MoveEffectKind.freeze 1)) =
        Option.some MoveType.WALK) := by
  constructor
  · by_cases h1 : p.effects MoveEffectKind.noclip = [] <;>
      by_cases h2 : p.effects MoveEffectKind.freeze = [] <;>
      by_cases h3 : p.effects MoveEffectKind.fly = [] <;>
      simp [updateMoveType, specResolverMode, h1, h2, h3]
  · exact ⟨rfl, rfl, rfl, rfl, rfl⟩

/-- C9 (`explicit`, algebraic_relational): rebinding the on- or off-behavior
returns a new effect whose handler map is empty for every key — so
`is_active_for` is false for every target regardless of any prior counts —
keeping the other callback; the new map does not depend on the original's
counters at all (any two originals yield the same fresh map), so the two
effects share no state. -/
theorem rebind_yields_fresh_counters (e : Effect) (f : Nat)
    (identify : Nat → Nat) (t key : Nat) :
    ((Effect.on e f).handlers key = [] ∧ (Effect.off e f).handlers key = []) ∧
    (Effect.isActiveFor (Effect.on e f) identify t = false ∧
     Effect.isActiveFor (Effect.off e f) identify t = false) ∧
    ((Effect.on e f).on_f = Option.some f ∧ (Effect.on e f).off_f = e.off_f) ∧
    ((Effect.off e f).on_f = e.on_f ∧ (Effect.off e f).off_f = Option.some f) ∧
    (∀ e' : Effect, (Effect.on e' f).handlers = (Effect.on e f).handlers ∧
        (Effect.off e' f).handlers = (Effect.off e f).handlers) :=
  ⟨⟨rfl, rfl⟩, ⟨rfl, rfl⟩, ⟨rfl, rfl⟩, ⟨rfl, rfl⟩, fun e' => ⟨rfl, rfl⟩⟩

/-- C10 (`implicit`, error_handling): class access through the descriptor
returns the effect itself; instance access constructs a brand-new handler
(fresh id, `_delay` None, not recorded in any handler list), so two accesses
never yield the same handler; and cancelling a freshly accessed,
never-activated handler raises the `ValueError` of an untracked revoke and
changes nothing — even while the effect is active for the target through
other handlers, whose entries the fresh handler's id does not match. -/
theorem descriptor_access_fresh_handler (e : Effect) (identify : Nat → Nat)
    (t nextId : Nat)
    (hfresh : nextId ∉ e.handlers (identify t)) :
    (Effect.get e Option.none nextId = (Sum.inl e, nextId)) ∧
    (Effect.get e (Option.some t) nextId =
      (Sum.inr ⟨nextId, t, Option.none⟩, nextId + 1)) ∧
    (∀ h1 h2 : EffectHandler, ∀ n1 n2 : Nat,
      Effect.get e (Option.some t) nextId = (Sum.inr h1, n1) →
      Effect.get e (Option.some t) n1 = (Sum.inr h2, n2) → h1 ≠ h2) ∧
    ((∀ x ∈ e.handlers (identify t), x < nextId) →
      nextId ∉ e.handlers (identify t)) ∧
    (∀ pending : List PendingDelay, ∀ did : Nat,
      EffectHandler.cancel ⟨e, pending, did⟩ identify ⟨nextId, t, Option.none⟩ =
        ⟨Except.error PyError.valueError, ⟨e, pending, did⟩,
         ⟨nextId, t, Option.none⟩, []⟩) := by
  refine ⟨rfl, rfl, ?_, ?_, ?_⟩
  · intro h1 h2 n1 n2 hg1 hg2
    rw [show Effect.get e (Option.some t) nextId =
        (Sum.inr ⟨nextId, t, Option.none⟩, nextId + 1) from rfl,
      Prod.mk.injEq] at hg1
    obtain ⟨hh1, hn1⟩ := hg1
    cases hh1
    subst hn1
    rw [show Effect.get e (Option.some t) (nextId + 1) =
        (Sum.inr ⟨nextId + 1, t, Option.none⟩, nextId + 2) from rfl,
      Prod.mk.injEq] at hg2
    obtain ⟨hh2, -⟩ := hg2
    cases hh2
    intro hc
    have hid : nextId = nextId + 1 := congrArg EffectHandler.id hc
    omega
  · intro hlt hmem
    exact absurd (hlt nextId hmem) (Nat.lt_irrefl nextId)
  · intro pending did
    exact handlerCancel_of_not_tracked rfl hfresh

/-- Witness for `descriptor_access_fresh_handler`: the effect is active for
target 5 through handler 2, yet cancelling the freshly accessed handler 9
raises and changes nothing. -/
theorem descriptor_access_fresh_handler_witness :
    ((9 : Nat) ∉ (Effect.mk Option.none Option.none
        (fun k => if k = 5 then [2] else [])).handlers ((fun k => k) 5)) ∧
    Effect.isActiveFor
        (Effect.mk Option.none Option.none (fun k => if k = 5 then [2] else []))
        (fun k => k) 5 = true ∧
    EffectHandler.cancel
        ⟨Effect.mk Option.none Option.none (fun k => if k = 5 then [2] else []),
         [], 0⟩ (fun k => k) ⟨9, 5, Option.none⟩ =
      ⟨Except.error PyError.valueError,
       ⟨Effect.mk Option.none Option.none (fun k => if k = 5 then [2] else []),
        [], 0⟩, ⟨9, 5, Option.none⟩, []⟩ :=
  ⟨by decide, by decide,
   (descriptor_access_fresh_handler
     (Effect.mk Option.none Option.none (fun k => if k = 5 then [2] else []))
     (fun k => k) 5 9 (by decide)).2.2.2.2 [] 0⟩

end EasyPlayer
